import Mathlib

/-!
Verification development for the SOL WhatsApp assistant (`src/server.js`,
version 2025-11-09.r3, the second and current server in the file).  The
JavaScript functions relevant to the frozen claims are shallowly embedded
below: strings are `List Char` / `String`, JS numbers are `ℚ` (embedding
vectors, where square roots are needed, are `ℝ`), fallible external
capabilities (OpenAI calls) are `Option`-valued parameters, and the mutable
module-level maps are explicit state records.  The JS regular expressions
are embedded through a small backtracking matcher (`RE` / `mat`) that
mirrors JavaScript regex semantics for the constructs the source uses:
greedy/lazy class stars, bounded repetition, alternation (leftmost
preference), optionals, word boundaries, capture groups and `$`.
-/

namespace Sol

/-! ## Character utilities (JS semantics) -/

/-- JS whitespace (the `\s` class and `String.prototype.trim`): space, tab,
newline, carriage return, form feed, vertical tab, NBSP. -/
def jsWs (c : Char) : Bool :=
  c = ' ' ∨ c = '\t' ∨ c = '\n' ∨ c = '\r' ∨ c = '\x0b' ∨ c = '\x0c' ∨ c.toNat = 0xa0

/-- JS word character: the `\w` class `[A-Za-z0-9_]`. -/
def isWordChar (c : Char) : Bool :=
  ('a' ≤ c ∧ c ≤ 'z') ∨ ('A' ≤ c ∧ c ≤ 'Z') ∨ ('0' ≤ c ∧ c ≤ '9') ∨ c = '_'

def isDigitChar (c : Char) : Bool := '0' ≤ c ∧ c ≤ '9'

/-- Case folding used to model `String.prototype.toLowerCase` (and the `/i`
regex flag, by matching lowered text against lowered literals) for the
alphabets occurring in the source: ASCII and Cyrillic. -/
def jsLowerChar (c : Char) : Char :=
  if 'A' ≤ c ∧ c ≤ 'Z' then Char.ofNat (c.toNat + 32)
  else if 0x410 ≤ c.toNat ∧ c.toNat ≤ 0x42F then Char.ofNat (c.toNat + 0x20)
  else if c.toNat = 0x401 then Char.ofNat 0x451
  else c

def jsToLower (s : String) : String := String.mk (s.data.map jsLowerChar)

/-- `String.prototype.trim` on a character list. -/
def jsTrim (l : List Char) : List Char :=
  ((l.dropWhile jsWs).reverse.dropWhile jsWs).reverse

def jsTrimStr (s : String) : String := String.mk (jsTrim s.data)

/-- `a.includes(b)` (substring test). -/
def containsSub (hay pat : String) : Bool :=
  (List.range (hay.data.length + 1)).any
    (fun i => (hay.data.drop i).take pat.data.length = pat.data)

/-- Numeric value of a digit string (used to model `parseInt`). -/
def natOfDigits (l : List Char) : Nat :=
  l.foldl (fun acc c => acc * 10 + (c.toNat - 48)) 0

/-- Models `parseFloat` on the well-formed numeric captures produced by the
source regexes (`\d{1,3}([.,]\d{1,2})?`), with `,` accepted as decimal
separator (the source does `.replace(",", ".")` before `parseFloat`). -/
def parseDecimal (s : List Char) : Option ℚ :=
  let ds := s.takeWhile isDigitChar
  let rest := s.dropWhile isDigitChar
  if ds = [] then none
  else
    match rest with
    | [] => some (natOfDigits ds)
    | c :: fs =>
      if (c = '.' ∨ c = ',') ∧ fs ≠ [] ∧ fs.all isDigitChar then
        some ((natOfDigits ds : ℚ) + (natOfDigits fs : ℚ) / (10 ^ fs.length))
      else some (natOfDigits ds)

/-! ## A small backtracking regex matcher

Capture results are lists of `(groupId, start, stop)` position triples. -/

abbrev CapRes := List (Nat × Nat × Nat)

inductive RE where
  | lit (w : List Char)
  | cls (f : Char → Bool)
  | alt (a b : RE)
  | seq (a b : RE)
  | opt (a : RE)
  | starG (f : Char → Bool)
  | starL (f : Char → Bool)
  | repG (f : Char → Bool) (lo hi : Nat)
  | wordB
  | grp (gid : Nat) (a : RE)
  | eos

/-- Sequence of several regexes. -/
def RE.cat (l : List RE) : RE := l.foldr RE.seq (RE.lit [])

/-- Literal from a string. -/
def RE.str (s : String) : RE := RE.lit s.data

/-- Alternation of several regexes (leftmost preference, like JS). -/
def RE.any1 (l : List RE) : RE :=
  match l with
  | [] => RE.lit []
  | [r] => r
  | r :: rs => RE.alt r (RE.any1 rs)

def litAt (s : List Char) (i : Nat) (w : List Char) : Bool :=
  (s.drop i).take w.length = w

def runLen (f : Char → Bool) (s : List Char) (i : Nat) : Nat :=
  ((s.drop i).takeWhile f).length

/-- Try continuation at offsets `i+n, i+n-1, …, i` (greedy order). -/
def tryDesc (k : Nat → Option CapRes) (i : Nat) : Nat → Option CapRes
  | 0 => k i
  | n + 1 => k (i + n + 1) <|> tryDesc k i n

/-- Try continuation at offsets `i, i+1, …, i+n` (lazy order). -/
def tryAsc (k : Nat → Option CapRes) (i : Nat) : Nat → Option CapRes
  | 0 => k i
  | n + 1 => tryAsc k i n <|> k (i + n + 1)

def wordBAt (s : List Char) (i : Nat) : Bool :=
  let before := if 0 < i ∧ i - 1 < s.length then isWordChar (s.getD (i-1) ' ') else false
  let after := if i < s.length then isWordChar (s.getD i ' ') else false
  before ≠ after

/-- Backtracking matcher in continuation style.  `mat s r i k` attempts to
match `r` at position `i` of `s` and calls `k` with the end position;
alternatives are explored in JS order (leftmost alternation preference,
greedy repetition trying longest first, lazy repetition shortest first). -/
def mat (s : List Char) : RE → Nat → (Nat → Option CapRes) → Option CapRes
  | .lit w, i, k => if litAt s i w then k (i + w.length) else none
  | .cls f, i, k => if i < s.length ∧ f (s.getD i ' ') then k (i + 1) else none
  | .alt a b, i, k => mat s a i k <|> mat s b i k
  | .seq a b, i, k => mat s a i (fun j => mat s b j k)
  | .opt a, i, k => mat s a i k <|> k i
  | .starG f, i, k => tryDesc k i (runLen f s i)
  | .starL f, i, k => tryAsc k i (runLen f s i)
  | .repG f lo hi, i, k =>
      let r := min hi (runLen f s i)
      if lo ≤ r then tryDesc k (i + lo) (r - lo) else none
  | .wordB, i, k => if wordBAt s i then k i else none
  | .grp g a, i, k => mat s a i (fun j => (k j).map (fun caps => (g, i, j) :: caps))
  | .eos, i, k => if i = s.length then k i else none

/-- Match anchored at position 0 (a JS regex starting with `^`). -/
def matchAt0 (r : RE) (s : List Char) : Option CapRes :=
  mat s r 0 (fun _ => some [])

def searchAux (s : List Char) (r : RE) : Nat → Nat → Option CapRes
  | i, 0 => mat s r i (fun _ => some [])
  | i, n + 1 => mat s r i (fun _ => some []) <|> searchAux s r (i + 1) n

/-- Unanchored search (JS `String.prototype.match` with a flagless regex):
the match at the leftmost possible start position wins. -/
def searchRE (r : RE) (s : List Char) : Option CapRes := searchAux s r 0 s.length

def capSpan (caps : CapRes) (g : Nat) : Option (Nat × Nat) :=
  (caps.find? (fun t => t.1 = g)).map (fun t => (t.2.1, t.2.2))

/-- The text of capture group `g` (empty if the group is absent). -/
def capSlice (s : List Char) (caps : CapRes) (g : Nat) : List Char :=
  match capSpan caps g with
  | some (a, b) => (s.take b).drop a
  | none => []

/-! ## SalaryEngine (`src/server.js` lines 619, 642-704) -/

/-- `DEFAULT_HOURLY = 12.26` — the PAM group 2 default hourly rate. -/
def DEFAULT_HOURLY : ℚ := 1226 / 100

/-- `+(x.toFixed(2))`: round to two decimal places.  The JS source rounds
IEEE doubles; the model rounds rationals half-up, which agrees on the
program's two-decimal inputs. -/
def round2 (q : ℚ) : ℚ := (round (q * 100) : ℤ) / 100

/-- `x || d` on JS numbers (`0` is falsy, NaN is outside the model). -/
def jsOrNum (x d : ℚ) : ℚ := if x = 0 then d else x

/-- `monthlyFromWeeklyHours(hourly, hoursPerWeek, weeksPerMonth = 52/12)`. -/
def monthlyFromWeeklyHours (hourly hoursPerWeek : ℚ) (weeksPerMonth : ℚ := 52 / 12) : ℚ :=
  let h := jsOrNum hoursPerWeek 0
  let r := jsOrNum hourly DEFAULT_HOURLY
  round2 (r * h * weeksPerMonth)

/-- `monthlyBy4Weeks(hourly, hoursPerWeek)`. -/
def monthlyBy4Weeks (hourly hoursPerWeek : ℚ) : ℚ :=
  let h := jsOrNum hoursPerWeek 0
  let r := jsOrNum hourly DEFAULT_HOURLY
  round2 (r * h * 4)

/-- The salary branch of `handleIncomingText` (lines 1188-1189) reports the
pair `by433 = monthlyFromWeeklyHours(rate, hours, 52/12)` and
`by4 = monthlyBy4Weeks(rate, hours)` together in one reply. -/
def estimate (rate hours : ℚ) : ℚ × ℚ :=
  (monthlyFromWeeklyHours rate hours (52 / 12), monthlyBy4Weeks rate hours)

/-- Shorthand for the `\s*` of the source regexes. -/
def wsStar : RE := RE.starG jsWs

/-- The numeric capture `(\d{1,3}(?:[.,]\d{1,2})?)` of the rate regexes. -/
def numGrp : RE :=
  RE.grp 1 (RE.seq (RE.repG isDigitChar 1 3)
    (RE.opt (RE.seq (RE.cls fun c => c = '.' ∨ c = ',') (RE.repG isDigitChar 1 2))))

/-- The trailing `(?:h|ч|hr)?\b` of the rate regexes. -/
def rateUnitTail : RE :=
  RE.seq (RE.opt (RE.any1 [RE.str "h", RE.str "ч", RE.str "hr"])) RE.wordB

/-- `/ставк[аи]?:?\s*(\d{1,3}(?:[.,]\d{1,2})?)/i` -/
def rateRe1 : RE :=
  RE.cat [RE.str "ставк", RE.opt (RE.cls fun c => c = 'а' ∨ c = 'и'),
    RE.opt (RE.str ":"), wsStar, numGrp]

/-- `/tunti?palkka[:\s]*?(\d{1,3}(?:[.,]\d{1,2})?)/i` -/
def rateRe2 : RE :=
  RE.cat [RE.str "tunt", RE.opt (RE.str "i"), RE.str "palkka",
    RE.starL (fun c => c = ':' ∨ jsWs c), numGrp]

/-- `/(\d{1,3}(?:[.,]\d{1,2})?)\s*(?:€|eur)\s*\/?\s*(?:h|ч|hr)?\b/i` -/
def rateRe3 : RE :=
  RE.cat [numGrp, wsStar, RE.alt (RE.str "€") (RE.str "eur"), wsStar,
    RE.opt (RE.str "/"), wsStar, rateUnitTail]

/-- `/€\s*(\d{1,3}(?:[.,]\d{1,2})?)\s*\/?\s*(?:h|ч|hr)?\b/i` -/
def rateRe4 : RE :=
  RE.cat [RE.str "€", wsStar, numGrp, wsStar, RE.opt (RE.str "/"), wsStar, rateUnitTail]

/-- The `||` chain of the four rate pattern matches. -/
def rateSearch (t : List Char) : Option CapRes :=
  searchRE rateRe1 t <|> searchRE rateRe2 t <|>
  searchRE rateRe3 t <|> searchRE rateRe4 t

/-- `parseHourlyRate(text)` (lines 658-669): lowercase the text, try the
four rate patterns in order, `parseFloat` the capture with `,` mapped to
`.`, and reject anything outside the 6-40 hourly-wage band
(`if (!isFinite(num) || num < 6 || num > 40) return null`). -/
def parseHourlyRate (text : String) : Option ℚ :=
  let t := (jsToLower text).data
  match rateSearch t with
  | none => none
  | some caps =>
    match parseDecimal (capSlice t caps 1) with
    | none => none
    | some num => if num < 6 ∨ 40 < num then none else some (round2 num)

/-- `(\d{1,3})` capture. -/
def digitsGrp13 : RE := RE.grp 1 (RE.repG isDigitChar 1 3)

/-- `(\d{1,2})` capture. -/
def digitsGrp12 : RE := RE.grp 1 (RE.repG isDigitChar 1 2)

/-- `/(\d{1,3})\s*(?:h|ч|t)\s*\/?\s*(?:week|нед|недел[юи]|vko|viikk)/i` -/
def hoursRe1 : RE :=
  RE.cat [digitsGrp13, wsStar, RE.any1 [RE.str "h", RE.str "ч", RE.str "t"],
    wsStar, RE.opt (RE.str "/"), wsStar,
    RE.any1 [RE.str "week", RE.str "нед",
      RE.seq (RE.str "недел") (RE.cls fun c => c = 'ю' ∨ c = 'и'),
      RE.str "vko", RE.str "viikk"]]

/-- `/(\d{1,3})\s*(?:tunn(?:in|tia)?)\s*(?:viikossa|\/vko)/i` -/
def hoursRe2 : RE :=
  RE.cat [digitsGrp13, wsStar, RE.str "tunn",
    RE.opt (RE.alt (RE.str "in") (RE.str "tia")), wsStar,
    RE.alt (RE.str "viikossa") (RE.str "/vko")]

/-- `/(\d{1,2})\s*час(?:а|ов)?\s*в\s*день/` -/
def dayRuRe : RE :=
  RE.cat [digitsGrp12, wsStar, RE.str "час",
    RE.opt (RE.alt (RE.str "а") (RE.str "ов")), wsStar, RE.str "в", wsStar, RE.str "день"]

/-- `/(\d{1,2})\s*h(?:ours)?\s*per\s*day/` -/
def dayEnRe : RE :=
  RE.cat [digitsGrp12, wsStar, RE.str "h", RE.opt (RE.str "ours"), wsStar,
    RE.str "per", wsStar, RE.str "day"]

/-- `/(\d{1,2})\s*tunn(?:in|tia)\s*päivässä/` -/
def dayFiRe : RE :=
  RE.cat [digitsGrp12, wsStar, RE.str "tunn", RE.alt (RE.str "in") (RE.str "tia"),
    wsStar, RE.str "päivässä"]

/-- `/(\d{1,2})\s*дн(?:я|ей)?\s*в\s*недел[юи]/` -/
def weekRuRe : RE :=
  RE.cat [digitsGrp12, wsStar, RE.str "дн",
    RE.opt (RE.alt (RE.str "я") (RE.str "ей")), wsStar, RE.str "в", wsStar,
    RE.str "недел", RE.cls (fun c => c = 'ю' ∨ c = 'и')]

/-- `/(\d{1,2})\s*days?\s*per\s*week/` -/
def weekEnRe : RE :=
  RE.cat [digitsGrp12, wsStar, RE.str "day", RE.opt (RE.str "s"), wsStar,
    RE.str "per", wsStar, RE.str "week"]

/-- `/(\d{1,2})\s*päivää\s*viikossa/` -/
def weekFiRe : RE :=
  RE.cat [digitsGrp12, wsStar, RE.str "päivää", wsStar, RE.str "viikossa"]

/-- The `||` chain of the two direct hours-per-week matches. -/
def hoursDirectSearch (t : List Char) : Option CapRes :=
  searchRE hoursRe1 t <|> searchRE hoursRe2 t

/-- The `||` chain of the three hours-per-day matches. -/
def dayHSearch (t : List Char) : Option CapRes :=
  searchRE dayRuRe t <|> searchRE dayEnRe t <|> searchRE dayFiRe t

/-- The `||` chain of the three days-per-week matches. -/
def weekDSearch (t : List Char) : Option CapRes :=
  searchRE weekRuRe t <|> searchRE weekEnRe t <|> searchRE weekFiRe t

/-- `parseHoursPerWeek(text)` (lines 674-702): direct "N hours/week"
patterns first (returning only when the value lies in the 1-100 band,
else falling through), then the compound "X hours per day, Y days per
week" patterns whose product is returned under the same band check;
otherwise `null`. -/
def parseHoursPerWeek (text : String) : Option ℕ :=
  let t := (jsToLower text).data
  let fromDirect : Option ℕ :=
    match hoursDirectSearch t with
    | some caps =>
      let n := natOfDigits (capSlice t caps 1)
      if 0 < n ∧ n ≤ 100 then some n else none
    | none => none
  match fromDirect with
  | some n => some n
  | none =>
    match (dayHSearch t).map (fun caps => natOfDigits (capSlice t caps 1)),
          (weekDSearch t).map (fun caps => natOfDigits (capSlice t caps 1)) with
    | some a, some b =>
      let n := a * b
      if 0 < n ∧ n ≤ 100 then some n else none
    | _, _ => none

/-- The `.` class of a flagless JS regex: anything but a line terminator. -/
def dotCls (c : Char) : Bool :=
  ¬(c = '\n' ∨ c = '\r' ∨ c.toNat = 0x2028 ∨ c.toNat = 0x2029)

/-- `SALARY_INTENT` (lines 703-704):
`/(зарплат|сколько.*в\s*месяц|сколько.*получ[уи]|pay|salary|monthly|посчитай|рассчита[йть])/i` -/
def salaryIntentRe : RE :=
  RE.any1 [RE.str "зарплат",
    RE.cat [RE.str "сколько", RE.starG dotCls, RE.str "в", wsStar, RE.str "месяц"],
    RE.cat [RE.str "сколько", RE.starG dotCls, RE.str "получ",
      RE.cls (fun c => c = 'у' ∨ c = 'и')],
    RE.str "pay", RE.str "salary", RE.str "monthly", RE.str "посчитай",
    RE.seq (RE.str "рассчита") (RE.cls (fun c => c = 'й' ∨ c = 'т' ∨ c = 'ь'))]

/-- `SALARY_INTENT.test(m)`. -/
def salaryIntentHit (m : String) : Bool :=
  (searchRE salaryIntentRe (jsToLower m).data).isSome

/-! ## KnowledgeIndex chunking (`src/server.js` lines 807-823) -/

def CHUNK_SIZE : Nat := 1200
def CHUNK_OVERLAP : Nat := 200

/-- `text.slice(i, e)` for `i ≤ e`. -/
def jsSlice (s : List Char) (i e : Nat) : List Char := (s.take e).drop i

/-- The `while` loop of `splitIntoChunks`, with explicit fuel.  Each list
entry records the window `[start, stop)` and the trimmed slice pushed for
it; `none` means the fuel ran out before the loop exited.  The JS
`i = end - overlap; if (i < 0) i = 0;` is exactly truncated `Nat`
subtraction. -/
def chunkLoopF (text : List Char) (size overlap : Nat) :
    Nat → Nat → List (Nat × Nat × List Char) → Option (List (Nat × Nat × List Char))
  | 0, _, _ => none
  | fuel + 1, i, acc =>
    if i < text.length then
      let e := min text.length (i + size)
      let acc2 := acc ++ [(i, e, jsTrim (jsSlice text i e))]
      if e = text.length then some acc2
      else chunkLoopF text size overlap fuel (e - overlap) acc2
    else some acc

/-- The loop's full trace of `(start, stop, trimmedSlice)` windows,
run with enough fuel (`length + 1` suffices whenever `overlap < size`). -/
def chunkScan (text : List Char) (size overlap : Nat) : List (Nat × Nat × List Char) :=
  (chunkLoopF text size overlap (text.length + 1) 0 []).getD []

/-- `splitIntoChunks(text, size = CHUNK_SIZE, overlap = CHUNK_OVERLAP)`:
the trimmed slices pushed by the loop, keeping only the non-empty ones
(`out.filter(s => s.length > 0)`). -/
def splitIntoChunks (text : List Char) (size : Nat := CHUNK_SIZE)
    (overlap : Nat := CHUNK_OVERLAP) : List (List Char) :=
  ((chunkScan text size overlap).map (fun w => w.2.2)).filter (fun s => 0 < s.length)

/-- Fuel `text.length + 1 - i` is enough for `chunkLoopF` whenever the
overlap is smaller than the chunk size: every continuing iteration moves
the window start forward by `size - overlap ≥ 1`. -/
theorem chunkLoopF_total (text : List Char) (size overlap : Nat) (h : overlap < size) :
    ∀ fuel i acc, text.length - i < fuel →
      ∃ r, chunkLoopF text size overlap fuel i acc = some r := by
  intro fuel
  induction fuel with
  | zero => intro i acc hf; omega
  | succ n ih =>
    intro i acc hf
    rw [chunkLoopF]
    by_cases hi : i < text.length
    · simp only [hi, if_true]
      by_cases he : min text.length (i + size) = text.length
      · simp only [he, if_true]
        exact ⟨_, rfl⟩
      · simp only [he, if_false]
        apply ih
        omega
    · simp only [hi, if_false]
      exact ⟨_, rfl⟩

/-- Scan windows cover every position of the text: the accumulated windows
cover `[0, i)` at each loop entry, and each iteration extends the covered
region up to the next start index (or to the end of the text). -/
theorem chunkLoopF_covers (text : List Char) (size overlap : Nat) :
    ∀ fuel i acc r, chunkLoopF text size overlap fuel i acc = some r →
      (∀ p, p < text.length → p < i → ∃ w ∈ acc, w.1 ≤ p ∧ p < w.2.1) →
      ∀ p, p < text.length → ∃ w ∈ r, w.1 ≤ p ∧ p < w.2.1 := by
  intro fuel
  induction fuel with
  | zero => intro i acc r hr; rw [chunkLoopF] at hr; exact absurd hr (by simp)
  | succ n ih =>
    intro i acc r hr hcov p hp
    rw [chunkLoopF] at hr
    by_cases hi : i < text.length
    · simp only [hi, if_true] at hr
      by_cases he : min text.length (i + size) = text.length
      · simp only [he, if_true, Option.some.injEq] at hr
        subst hr
        by_cases hpi : p < i
        · obtain ⟨w, hw, hwp⟩ := hcov p hp hpi
          exact ⟨w, List.mem_append_left _ hw, hwp⟩
        · exact ⟨(i, text.length, jsTrim (jsSlice text i text.length)),
            List.mem_append_right _ (by simp [he]), by omega, by simp only; omega⟩
      · simp only [he, if_false] at hr
        refine ih _ _ _ hr ?_ p hp
        intro q hq hqlt
        by_cases hqi : q < i
        · obtain ⟨w, hw, hwp⟩ := hcov q hq hqi
          exact ⟨w, List.mem_append_left _ hw, hwp⟩
        · exact ⟨(i, min text.length (i + size),
              jsTrim (jsSlice text i (min text.length (i + size)))),
            List.mem_append_right _ (by simp), by omega, by simp only; omega⟩
    · simp only [hi, if_false, Option.some.injEq] at hr
      subst hr
      exact hcov p hp (by omega)

/-! ## Cosine similarity (`src/server.js` lines 824-831)

Embedding vectors are modelled as `List ℝ`; IEEE floating point artifacts
(NaN, rounding) are outside the model — in particular the claim's "never
NaN" reads as: the guarded definition never divides by zero. -/

/-- The loop accumulator `dot` (also `na`, `nb` with `a = b`):
`for i < a.length { dot += a[i]*b[i] }`, over the common length. -/
def dotSum (a b : List ℝ) : ℝ := (List.zipWith (· * ·) a b).sum

/-- L2 norm `Math.sqrt(Σ v[i]²)`. -/
noncomputable def l2norm (a : List ℝ) : ℝ := Real.sqrt (dotSum a a)

/-- `cosineSim(a, b)`: the `if (!na || !nb) return 0;` guard, then
`dot / (Math.sqrt(na) * Math.sqrt(nb))`. -/
noncomputable def cosineSim (a b : List ℝ) : ℝ :=
  let dot := dotSum a b
  let na := dotSum a a
  let nb := dotSum b b
  if na = 0 ∨ nb = 0 then 0 else dot / (Real.sqrt na * Real.sqrt nb)

theorem dotSum_self_nonneg (a : List ℝ) : 0 ≤ dotSum a a := by
  induction a with
  | nil => simp [dotSum]
  | cons x xs ih =>
    have hx := mul_self_nonneg x
    simp only [dotSum, List.zipWith, List.sum_cons] at *
    linarith

theorem dotSum_self_eq_zero_iff_norm (a : List ℝ) : dotSum a a = 0 ↔ l2norm a = 0 := by
  unfold l2norm
  constructor
  · intro h; rw [h, Real.sqrt_zero]
  · intro h
    have := dotSum_self_nonneg a
    have := (Real.sqrt_eq_zero (by linarith)).mp h
    linarith

/-! ## KnowledgeIndex state, build and retrieval
(`src/server.js` lines 803-897, 952-988) -/

/-- An entry of `KB_CHUNKS`: `{id, doc, chunk, text, embedding}`. -/
structure KBChunkRec where
  id : Nat
  doc : String
  chunk : Nat
  text : List Char
  embedding : List ℝ

/-- The two module-level globals `KB_DOCS` and `KB_CHUNKS`. -/
structure KBState where
  docs : List (String × List Char)
  chunks : List KBChunkRec

/-- `/\.(md|txt)$/i.test(f)`. -/
def hasKbExt (name : String) : Bool :=
  let l := (jsToLower name).data
  l.reverse.take 3 = ".md".data.reverse ∨ l.reverse.take 4 = ".txt".data.reverse

/-- One chunk awaiting embedding, as pushed into `allChunks`:
`(doc, chunk index, text)`. -/
abbrev PendChunk := String × Nat × List Char

/-- The `for (let i = 0; i < allChunks.length; i += BATCH)` loop of
`buildKBEmbeddings`, with explicit fuel (`pending.length + 1` suffices,
`embedLoopF_total`).  Each round embeds a 64-element batch; a thrown
embedding call (modelled by `embed` returning `none`) aborts the loop,
leaving exactly the records pushed by the earlier rounds.  The embedding
capability returns one vector per input in order (its documented
contract), modelled by zipping. -/
def embedLoopF (embed : List (List Char) → Option (List (List ℝ))) :
    Nat → List PendChunk → Nat → List KBChunkRec → Option (Bool × List KBChunkRec)
  | 0, _, _, _ => none
  | fuel + 1, pending, idCounter, acc =>
    match pending with
    | [] => some (true, acc)
    | p :: ps =>
      let batch := (p :: ps).take 64
      match embed (batch.map (fun b => b.2.2)) with
      | none => some (false, acc)
      | some embs =>
        let recs := (batch.zip embs).enum.map (fun je =>
          { id := idCounter + je.1, doc := je.2.1.1, chunk := je.2.1.2.1,
            text := je.2.1.2.2, embedding := je.2.2 : KBChunkRec })
        embedLoopF embed fuel ((p :: ps).drop 64)
          (idCounter + (batch.zip embs).length) (acc ++ recs)

theorem embedLoopF_total (embed : List (List Char) → Option (List (List ℝ))) :
    ∀ fuel pending idCounter acc, List.length pending < fuel →
      (embedLoopF embed fuel pending idCounter acc).isSome := by
  intro fuel
  induction fuel with
  | zero => intro pending idc acc h; omega
  | succ n ih =>
    intro pending idc acc h
    match pending with
    | [] => simp [embedLoopF]
    | p :: ps =>
      rw [embedLoopF]
      cases embed (((p :: ps).take 64).map (fun b => b.2.2)) with
      | none => simp
      | some embs =>
        simp only
        apply ih
        simp only [List.length_drop, List.length_cons] at h ⊢
        omega

/-- `buildKBEmbeddings()` (lines 839-877) as a state transformer on the
`(KB_DOCS, KB_CHUNKS)` globals.  `prev` is the state the globals held when
the call started; the function's first statements `KB_DOCS = [];
KB_CHUNKS = [];` discard it unconditionally.  `dirExists` models
`fs.existsSync(KB_DIR)` and `files` the `readdirSync` listing with each
file's content (`safeRead` of an unreadable file yields `""`, which the
`!text.trim()` check then skips, so unreadable files need no separate
modelling).  Returns `(no exception was thrown, final globals)`. -/
def buildKBEmbeddings (dirExists : Bool) (files : List (String × List Char))
    (embed : List (List Char) → Option (List (List ℝ))) (prev : KBState) :
    Bool × KBState :=
  if !dirExists then (true, ⟨[], []⟩)
  else
    let kbFiles := files.filter (fun f => hasKbExt f.1)
    if kbFiles.isEmpty then (true, ⟨[], []⟩)
    else
      let docs := kbFiles.filter (fun f => jsTrim f.2 ≠ [])
      let allChunks : List PendChunk :=
        docs.flatMap (fun d => (splitIntoChunks d.2).enum.map (fun ic => (d.1, ic.1, ic.2)))
      match embedLoopF embed (allChunks.length + 1) allChunks 0 [] with
      | some (ok, chunks) => (ok, ⟨docs, chunks⟩)
      | none => (false, ⟨docs, []⟩)

/-- `topKRelevant(queryEmbedding, k = 6)` (lines 878-883): empty when the
index is empty, otherwise every chunk scored by `cosineSim`, stably sorted
descending by score, top `k` taken. -/
noncomputable def topKRelevant (chunks : List KBChunkRec) (queryEmbedding : List ℝ)
    (k : Nat := 6) : List KBChunkRec :=
  match chunks with
  | [] => []
  | _ :: _ =>
    let scored := chunks.map (fun c => (c, cosineSim queryEmbedding c.embedding))
    let sorted := scored.mergeSort (fun x y => decide (y.2 ≤ x.2))
    (sorted.take k).map (fun sc => sc.1)

/-- One `block` of `formatContextFromChunks`. -/
def formatBlock (c : KBChunkRec) : String :=
  "\n----- " ++ c.doc ++ " [" ++ toString c.chunk ++ "] -----\n" ++ String.mk c.text ++ "\n"

/-- The budgeted accumulation loop of `formatContextFromChunks`: a block
that would push `used` past `maxChars` stops the loop (`break`), dropping
that chunk and all later ones. -/
def formatLoop (maxChars : Nat) : List KBChunkRec → Nat → String → String
  | [], _, acc => acc
  | c :: rest, used, acc =>
    let block := formatBlock c
    if maxChars < used + block.length then acc
    else formatLoop maxChars rest (used + block.length) (acc ++ block)

/-- `formatContextFromChunks(chunks, maxChars = 7000)` (lines 884-895). -/
def formatContextFromChunks (chunks : List KBChunkRec) (maxChars : Nat := 7000) : String :=
  if chunks.isEmpty then "" else formatLoop maxChars chunks 0 "### KB matched context\n"

/-- ASCII apostrophe (kept out of string literals). -/
def apos : String := String.singleton (Char.ofNat 39)

/-- The grounding system prompt of `chatWithKB` (lines 966-970), before the
optional `[KB CONTEXT]` section. -/
def chatSystemBase (userLangCode : String) : String :=
  "You are SOL — a warm, human assistant for SOL employees in Finland.\n" ++
  "- Respond in the user" ++ apos ++ "s current language (" ++ userLangCode ++
  "). If the user writes in another language, follow the user" ++ apos ++
  "s latest message language.\n" ++
  "- Be concise (3–7 short sentences), friendly, and practical.\n" ++
  "- Prefer ONLY facts from [KB CONTEXT] for SOL rules/rights/chemicals/safety. " ++
  "If the answer is not in [KB CONTEXT], say you don" ++ apos ++
  "t know and suggest checking with a supervisor/HR."

/-- Observable outcome of one `chatWithKB` call: whether the embedding and
generation capabilities were invoked, the system prompt composed, and the
reply returned. -/
structure ChatResult where
  embedCalled : Bool
  genCalled : Bool
  systemPrompt : String
  reply : String

/-- `chatWithKB(userText, userLangCode)` (lines 952-988).  The query
embedding call is made unconditionally inside a `try`; on failure
(`embedQ = none`) the caught error leaves `ctx = ""`.  The chat-completion
call is then made unconditionally; a failed or empty generation yields the
fixed fallback `"OK."`. -/
noncomputable def chatWithKB (chunks : List KBChunkRec) (userText userLangCode : String)
    (embedQ : Option (List ℝ)) (gen : String → String → Option String) : ChatResult :=
  let ctx := match embedQ with
    | some q => formatContextFromChunks (topKRelevant chunks q 6) 7000
    | none => ""
  let system := chatSystemBase userLangCode ++
    (if ctx = "" then "" else "\n\n[KB CONTEXT]\n" ++ ctx)
  let reply := match gen system userText with
    | some out => if jsTrimStr out = "" then "OK." else jsTrimStr out
    | none => "OK."
  { embedCalled := true, genCalled := true, systemPrompt := system, reply := reply }

/-! ## Language memory (`src/server.js` lines 899-949) -/

/-- `two(s)`: `(s || "").slice(0, 2).toLowerCase()`. -/
def twoOf (s : String) : String := jsToLower (String.mk (s.data.take 2))

/-- `/^[a-z]{2}$/.test(s)`. -/
def isTwoLetter (s : String) : Bool :=
  s.data.length = 2 ∧ s.data.all (fun c => 'a' ≤ c ∧ c ≤ 'z')

/-- `ensureUserLang(from, valueObj, sampleText)` (lines 918-930) for one
user: `cached` is `userLang.get(from)`, `hint` the platform locale field
of the webhook payload, `detected` the value `detectLangByText` would
return (that wrapper already defaults to `"en"` and validates the shape).
Returns the resolved language and the new cache entry for the user. -/
def ensureUserLang (cached : Option String) (hint : Option String) (detected : String) :
    String × Option String :=
  match cached with
  | some l => (l, some l)
  | none =>
    let sys := hint.getD ""
    if sys ≠ "" ∧ isTwoLetter (twoOf sys) then (twoOf sys, some (twoOf sys))
    else (detected, some detected)

/-! ## Translation command parsing (`src/server.js` lines 710-763) -/

/-- `LANG_NAME_TO_CODE`, in source order (JS object duplicate keys keep the
last entry; the duplicated names map to the same code, so first-match
lookup agrees). -/
def LANG_NAME_TO_CODE : List (String × String) :=
  [("русский", "ru"), ("английский", "en"), ("финский", "fi"), ("непальский", "ne"),
   ("бенгальский", "bn"), ("испанский", "es"), ("португальский", "pt"),
   ("французский", "fr"), ("немецкий", "de"), ("итальянский", "it"),
   ("украинский", "uk"), ("эстонский", "et"),
   ("suomi", "fi"), ("englanti", "en"), ("venäjä", "ru"), ("nepali", "ne"),
   ("bengali", "bn"),
   ("russian", "ru"), ("english", "en"), ("finnish", "fi"), ("nepali", "ne"),
   ("bengali", "bn"), ("spanish", "es"), ("portuguese", "pt"), ("french", "fr"),
   ("german", "de"), ("italian", "it")]

/-- `langCodeFromName(word)` (lines 722-724). -/
def langCodeFromName (word : String) : Option String :=
  let w := jsTrimStr (jsToLower word)
  match (LANG_NAME_TO_CODE.find? (fun p => p.1 = w)).map (fun p => p.2) with
  | some c => some c
  | none => if isTwoLetter w then some w else none

/-- Result of `parseTranslateCommand`: `{ code, text }` where `code` may be
`null` (a language name that resolves to no code). -/
structure TrCmd where
  code : Option String
  text : String

/-- `/^->\s*([a-z]{2})\s+([\s\S]+)$/i` -/
def trRe1 : RE :=
  RE.cat [RE.str "->", wsStar,
    RE.grp 1 (RE.repG (fun c => 'a' ≤ c ∧ c ≤ 'z') 2 2),
    RE.cls jsWs, wsStar,
    RE.grp 2 (RE.seq (RE.cls (fun _ => true)) (RE.starG (fun _ => true))), RE.eos]

/-- `/^(?:переведи|перевод|translate)\s+(?:на|to)\s+([^\s:]+)\s*[:\-]?\s*([\s\S]*)$/i` -/
def trRe2 : RE :=
  RE.cat [RE.any1 [RE.str "переведи", RE.str "перевод", RE.str "translate"],
    RE.cls jsWs, wsStar, RE.alt (RE.str "на") (RE.str "to"), RE.cls jsWs, wsStar,
    RE.grp 1 (RE.seq (RE.cls (fun c => ¬(jsWs c ∨ c = ':')))
      (RE.starG (fun c => ¬(jsWs c ∨ c = ':')))),
    wsStar, RE.opt (RE.cls (fun c => c = ':' ∨ c = '-')), wsStar,
    RE.grp 2 (RE.starG (fun _ => true)), RE.eos]

/-- `parseTranslateCommand(msg)` (lines 747-763).  The `/i` flag is
modelled by matching the lowered text; captured spans are then read from
the lowered text where the source lowercases the capture, and from the
original where it does not (the char-wise lowering preserves positions). -/
def parseTranslateCommand (msg : String) : Option TrCmd :=
  let t := jsTrimStr msg
  let tl := (jsToLower t).data
  match matchAt0 trRe1 tl with
  | some caps =>
    some { code := some (String.mk (capSlice tl caps 1)),
           text := jsTrimStr (String.mk (capSlice t.data caps 2)) }
  | none =>
    match matchAt0 trRe2 tl with
    | some caps =>
      some { code := langCodeFromName (String.mk (capSlice tl caps 1)),
             text := jsTrimStr (String.mk (capSlice t.data caps 2)) }
    | none => none

/-! ## Schedule and chit-chat detectors (`src/server.js` lines 1032-1079) -/

def SCHEDULE_KEYWORDS : List String :=
  ["schedule", "shift", "calendar", "horario", "calendario", "grafik", "duty",
   "расписание", "смен", "календарь",
   "aikataulu", "vuorolista",
   "সময়সূচি", "ক্যালেন্ডার", "শিফট",
   "समय", "कार्यतालिका", "शिफ्ट",
   "时间表", "班表", "工作时间",
   "勤務表", "シフト", "スケジュール"]

def SCHEDULE_COMBOS : List (String × String) :=
  [("today", "shift"), ("work", "hours"), ("job", "time"),
   ("сегодня", "смен"), ("график", "работ"), ("vuoro", "tänään"),
   ("আজ", "শিফট"), ("班", "今天")]

/-- `fastScheduleHit(text)` (lines 1047-1054). -/
def fastScheduleHit (text : String) : Bool :=
  let t := jsToLower text
  SCHEDULE_KEYWORDS.any (fun w => containsSub t w) ∨
  SCHEDULE_COMBOS.any (fun ab => containsSub t ab.1 ∧ containsSub t ab.2)

/-- `CHITCHAT_RE` (line 1079):
`/(?:поболта(ть|ем)|поговорим|просто чат|small talk|let'?s talk|как дела|привет|я устал|мне грустно)/i` -/
def chitchatRe : RE :=
  RE.any1 [RE.seq (RE.str "поболта") (RE.grp 1 (RE.alt (RE.str "ть") (RE.str "ем"))),
    RE.str "поговорим", RE.str "просто чат", RE.str "small talk",
    RE.cat [RE.str "let", RE.opt (RE.str apos), RE.str "s talk"],
    RE.str "как дела", RE.str "привет", RE.str "я устал", RE.str "мне грустно"]

/-- `CHITCHAT_RE.test(m)`. -/
def chitchatHit (m : String) : Bool := (searchRE chitchatRe (jsToLower m).data).isSome

/-- Reset regex (line 1090): `/^(reset|сброс)\s*(rate|ставка)?/i`. -/
def resetRe : RE :=
  RE.cat [RE.grp 1 (RE.alt (RE.str "reset") (RE.str "сброс")), wsStar,
    RE.opt (RE.grp 2 (RE.alt (RE.str "rate") (RE.str "ставка")))]

/-- `/^(reset|сброс)\s*(rate|ставка)?/i.test(m)`. -/
def resetTest (m : String) : Bool := (matchAt0 resetRe (jsToLower m).data).isSome

/-! ## Per-user state and the text handler (`src/server.js` lines 1077-1206) -/

/-- An entry of `USER_STATE`: `{ rate?, hoursPerWeek?, lastText?,
lastTextPrev? }`. -/
structure UserRec where
  rate : Option ℚ := none
  hoursPerWeek : Option ℕ := none
  lastText : Option String := none
  lastTextPrev : Option String := none
deriving DecidableEq

/-- The module-level maps `USER_STATE` and `userLang`, keyed by phone
number. -/
structure ServerState where
  userState : String → Option UserRec
  userLang : String → Option String

/-- `Map.set` / `Map.delete` on a map modelled as a function. -/
def updF (f : String → Option α) (k : String) (v : Option α) : String → Option α :=
  fun x => if x = k then v else f x

/-- The intents realised by the early-return branches of
`handleIncomingText`. -/
inductive Intent where
  | reset | chitchat | translation | schedule | salary | kb
deriving DecidableEq

/-- The dispatch test of the translation branch (line 1114):
`trCmd && trCmd.code`. -/
def translateCmdHit (m : String) : Bool :=
  match parseTranslateCommand m with
  | some cmd => cmd.code.isSome
  | none => false

/-- The branch `handleIncomingText` (lines 1082-1206) takes on a trimmed
message `m`, i.e. its chain of early-return tests in source order: reset
regex, `CHITCHAT_RE`, translate command with a resolvable target code,
`looksLikeScheduleRequestSmart` (fast lexical hit, else the external
yes/no classifier whose answer is the parameter `aiSchedule`), then
`wantsSalary = SALARY_INTENT.test(m) || foundHours || foundRate`, and
otherwise the KB fallback. -/
def handleIncomingTextIntent (m : String) (aiSchedule : Bool) : Intent :=
  if resetTest m then .reset
  else if chitchatHit m then .chitchat
  else if translateCmdHit m then .translation
  else if fastScheduleHit m || aiSchedule then .schedule
  else if salaryIntentHit m || (parseHoursPerWeek m).isSome || (parseHourlyRate m).isSome
    then .salary
  else .kb

/-- The canned reset acknowledgments of the reset branch (lines 1092-1096). -/
def resetAckRu : String := "Ок, сбросил ставку и часы для расчетов."

def resetAckFi : String := "Ok, nollasin tuntipalkan ja viikkotunnit."

def resetAckEn : String := "Okay, I reset hourly rate and weekly hours."

/-- The ternary choosing the acknowledgment:
`lang === "ru" ? … : lang === "fi" ? … : …`. -/
def resetAck (lang : String) : String :=
  if lang = "ru" then resetAckRu else if lang = "fi" then resetAckFi else resetAckEn

/-- The natural language each canned acknowledgment string is written in —
a modelling fact about the three constants (Russian, Finnish and English
prose respectively), used to state "the acknowledgment is in the user's
language". -/
def ackLanguage (s : String) : String :=
  if s = resetAckRu then "ru"
  else if s = resetAckFi then "fi"
  else if s = resetAckEn then "en"
  else "und"

/-- The part of `handleIncomingText` (lines 1082-1098) executed on a
message whose trimmed text matches the reset regex: resolve the user's
language, record `lastText` into `USER_STATE`, then `USER_STATE.delete(from)`
and send the canned acknowledgment.  Returns the new server state and the
reply text. -/
def handleResetMessage (frm : String) (hint : Option String) (detected : String)
    (body : String) (s : ServerState) : ServerState × String :=
  let el := ensureUserLang (s.userLang frm) hint detected
  let lang := el.1
  let s1 : ServerState := { s with userLang := updF s.userLang frm el.2 }
  let m := jsTrimStr body
  let st0 := (s1.userState frm).getD {}
  let st1 := { st0 with lastText := some m }
  let s2 : ServerState := { s1 with userState := updF s1.userState frm (some st1) }
  let s3 : ServerState := { s2 with userState := updF s2.userState frm none }
  (s3, resetAck lang)

/-! ## Helper lemmas -/

theorem jsOrNum_zero_default (x : ℚ) : jsOrNum x 0 = x := by
  unfold jsOrNum; split <;> simp_all

theorem jsOrNum_of_ne_zero {x : ℚ} (d : ℚ) (hx : x ≠ 0) : jsOrNum x d = x := by
  unfold jsOrNum; simp [hx]

theorem band_fail_of_not {x : ℕ} (h : ¬(0 < x ∧ x ≤ 100)) (hx : 0 < x) : 100 < x := by
  omega

theorem round_mono_q {x y : ℚ} (h : x ≤ y) : round x ≤ round y := by
  rw [round_eq, round_eq]
  exact Int.floor_le_floor (by linarith)

theorem round2_band {q : ℚ} (h1 : 6 ≤ q) (h2 : q ≤ 40) :
    6 ≤ round2 q ∧ round2 q ≤ 40 := by
  unfold round2
  have e600 : round ((600 : ℚ)) = 600 := by norm_num [round_eq]
  have e4000 : round ((4000 : ℚ)) = 4000 := by norm_num [round_eq]
  have m1 : (600 : ℤ) ≤ round (q * 100) := by
    have := round_mono_q (x := (600 : ℚ)) (y := q * 100) (by linarith)
    rwa [e600] at this
  have m2 : round (q * 100) ≤ (4000 : ℤ) := by
    have := round_mono_q (x := q * 100) (y := (4000 : ℚ)) (by linarith)
    rwa [e4000] at this
  have c1 : (600 : ℚ) ≤ (round (q * 100) : ℤ) := by exact_mod_cast m1
  have c2 : ((round (q * 100) : ℤ) : ℚ) ≤ 4000 := by exact_mod_cast m2
  exact ⟨by linarith [c1], by linarith [c2]⟩

/-! ## Claim theorems -/

/-- **C4** (corrected).  For every *nonzero* rate `r` and weekly hours `h`
the estimate returns both figures together: the average-weeks figure
`round2 (r*h*(52/12))` and the four-week figure `round2 (r*h*4)`.  (With
rate `0` the JS `hourly || DEFAULT_HOURLY` substitutes the 12.26 default,
see the counterexample.) -/
theorem estimate_formulas (r h : ℚ) (hr : r ≠ 0) :
    (estimate r h).1 = round2 (r * h * (52 / 12)) ∧
    (estimate r h).2 = round2 (r * h * 4) := by
  unfold estimate monthlyFromWeeklyHours monthlyBy4Weeks
  rw [jsOrNum_zero_default, jsOrNum_of_ne_zero _ hr]
  exact ⟨rfl, rfl⟩

/-- Witness for C4 at the claim's own instance `estimate(12.26, 25)`:
`12.26 × 25 × 52/12` rounds to `1328.17` and `12.26 × 25 × 4` to `1226`. -/
theorem estimate_formulas_witness :
    (1226 / 100 : ℚ) ≠ 0 ∧
    (estimate (1226 / 100) 25).1 = round2 ((1226 / 100 : ℚ) * 25 * (52 / 12)) ∧
    (estimate (1226 / 100) 25).2 = round2 ((1226 / 100 : ℚ) * 25 * 4) ∧
    (estimate (1226 / 100) 25).1 = 132817 / 100 ∧
    (estimate (1226 / 100) 25).2 = 1226 := by
  refine ⟨by norm_num, (estimate_formulas _ _ (by norm_num)).1,
    (estimate_formulas _ _ (by norm_num)).2, ?_, ?_⟩ <;>
    norm_num [estimate, monthlyFromWeeklyHours, monthlyBy4Weeks, jsOrNum,
      DEFAULT_HOURLY, round2, round_eq]

/-- **C4 counterexample** to the claim as stated ("for every rate r"):
at rate `0` the code substitutes the default 12.26 and returns `1328.17`,
not `round2 (0 × 25 × 52/12) = 0`. -/
theorem estimate_zero_rate_counterexample :
    (estimate 0 25).1 ≠ round2 ((0 : ℚ) * 25 * (52 / 12)) ∧
    (estimate 0 25).1 = round2 (DEFAULT_HOURLY * 25 * (52 / 12)) := by
  constructor <;>
    norm_num [estimate, monthlyFromWeeklyHours, monthlyBy4Weeks, jsOrNum,
      DEFAULT_HOURLY, round2, round_eq]

/-- **C5** (confirmed).  The hourly-rate extractor returns either `none`
or a value in the plausible wage band `[6, 40]`; the comma decimal
separator is accepted (`parseHourlyRate "ставка 12,26" = 12.26`) and
`"I earn 500 euros"` yields `none` (the `eur` match fails the trailing
word boundary inside "euros"). -/
theorem parseHourlyRate_band :
    (∀ t : String, parseHourlyRate t = none ∨
      ∃ q : ℚ, parseHourlyRate t = some q ∧ 6 ≤ q ∧ q ≤ 40) ∧
    parseHourlyRate "ставка 12,26" = some (1226 / 100) ∧
    parseHourlyRate "I earn 500 euros" = none := by
  have hpos : parseHourlyRate "ставка 12,26" = some (1226 / 100) := by
    have hm : rateSearch ((jsToLower "ставка 12,26").data) = some [(1, 7, 12)] := by decide
    have hsl : capSlice ((jsToLower "ставка 12,26").data) [(1, 7, 12)] 1 =
        ['1', '2', ',', '2', '6'] := by decide
    have hd : parseDecimal ['1', '2', ',', '2', '6'] = some (1226 / 100) := by
      have htw : List.takeWhile isDigitChar (['1', '2', ',', '2', '6'] : List Char) =
          ['1', '2'] := by decide
      have hdw : List.dropWhile isDigitChar (['1', '2', ',', '2', '6'] : List Char) =
          [',', '2', '6'] := by decide
      have hn1 : natOfDigits ['1', '2'] = 12 := by decide
      have hn2 : natOfDigits ['2', '6'] = 26 := by decide
      simp only [parseDecimal, htw, hdw, hn1, hn2]
      norm_num
      decide
    have hr2 : round2 (1226 / 100) = (1226 / 100 : ℚ) := by norm_num [round2, round_eq]
    have hcond : ¬((1226 / 100 : ℚ) < 6 ∨ 40 < (1226 / 100 : ℚ)) := by norm_num
    simp [parseHourlyRate, hm, hsl, hd, hcond, hr2]
  have hneg : parseHourlyRate "I earn 500 euros" = none := by
    have hm : rateSearch ((jsToLower "I earn 500 euros").data) = none := by decide
    simp [parseHourlyRate, hm]
  refine ⟨?_, hpos, hneg⟩
  intro t
  unfold parseHourlyRate
  cases hm : rateSearch (jsToLower t).data with
  | none => exact Or.inl (by simp [hm])
  | some caps =>
    cases hd : parseDecimal (capSlice (jsToLower t).data caps 1) with
    | none => exact Or.inl (by simp [hm, hd])
    | some num =>
      by_cases hband : num < 6 ∨ 40 < num
      · exact Or.inl (by simp [hm, hd, hband])
      · have hb := hband
        push_neg at hb
        obtain ⟨hb1, hb2⟩ := round2_band hb.1 hb.2
        refine Or.inr ⟨round2 num, ?_, hb1, hb2⟩
        simp [hm, hd, hband]

/-- **C6** (confirmed).  The weekly-hours extractor returns either `none`
or a value in the band `[1, 100]`; it recognizes the direct phrasing
(`"25 h/week" ↦ 25`) and the compound phrasing, multiplying hours/day by
days/week (`"15 hours per day, 6 days per week" ↦ 90`). -/
theorem parseHoursPerWeek_band :
    (∀ t : String, parseHoursPerWeek t = none ∨
      ∃ n : ℕ, parseHoursPerWeek t = some n ∧ 1 ≤ n ∧ n ≤ 100) ∧
    parseHoursPerWeek "25 h/week" = some 25 ∧
    parseHoursPerWeek "15 hours per day, 6 days per week" = some 90 := by
  refine ⟨?_, by decide, by decide⟩
  intro t
  unfold parseHoursPerWeek
  cases hm : hoursDirectSearch (jsToLower t).data with
  | some caps =>
    by_cases hg : 0 < natOfDigits (capSlice (jsToLower t).data caps 1) ∧
        natOfDigits (capSlice (jsToLower t).data caps 1) ≤ 100
    · exact Or.inr ⟨_, by simp [hm, hg], hg.1, hg.2⟩
    · cases hd : (dayHSearch (jsToLower t).data).map
          (fun caps => natOfDigits (capSlice (jsToLower t).data caps 1)) with
      | none => exact Or.inl (by simp [hm, hg, hd])
      | some a =>
        cases hw : (weekDSearch (jsToLower t).data).map
            (fun caps => natOfDigits (capSlice (jsToLower t).data caps 1)) with
        | none => exact Or.inl (by simp [hm, hg, hd, hw])
        | some b =>
          by_cases hg2 : 0 < a * b ∧ a * b ≤ 100
          · exact Or.inr ⟨a * b, by simp [hm, hg, hd, hw, hg2], hg2.1, hg2.2⟩
          · exact Or.inl (by
              simp [hm, hg, hd, hw]
              exact fun ha hb => band_fail_of_not hg2 (Nat.mul_pos ha hb))
  | none =>
    cases hd : (dayHSearch (jsToLower t).data).map
        (fun caps => natOfDigits (capSlice (jsToLower t).data caps 1)) with
    | none => exact Or.inl (by simp [hm, hd])
    | some a =>
      cases hw : (weekDSearch (jsToLower t).data).map
          (fun caps => natOfDigits (capSlice (jsToLower t).data caps 1)) with
      | none => exact Or.inl (by simp [hm, hd, hw])
      | some b =>
        by_cases hg2 : 0 < a * b ∧ a * b ≤ 100
        · exact Or.inr ⟨a * b, by simp [hm, hd, hw, hg2], hg2.1, hg2.2⟩
        · exact Or.inl (by
            simp [hm, hd, hw]
            exact fun ha hb => band_fail_of_not hg2 (Nat.mul_pos ha hb))

/-- **C7** (confirmed).  For equal-length vectors, `cosineSim` returns `0`
whenever either vector has zero L2 norm (the `!na || !nb` guard, so no
division by zero ever happens), and otherwise the dot product divided by
the product of the two L2 norms. -/
theorem cosineSim_guarded (a b : List ℝ) (hlen : a.length = b.length) :
    (l2norm a = 0 ∨ l2norm b = 0 → cosineSim a b = 0) ∧
    (l2norm a ≠ 0 → l2norm b ≠ 0 →
      cosineSim a b = dotSum a b / (l2norm a * l2norm b)) := by
  constructor
  · intro h
    have hz : dotSum a a = 0 ∨ dotSum b b = 0 := by
      rcases h with h | h
      · exact Or.inl ((dotSum_self_eq_zero_iff_norm a).mpr h)
      · exact Or.inr ((dotSum_self_eq_zero_iff_norm b).mpr h)
    unfold cosineSim
    simp [hz]
  · intro ha hb
    have ha2 : dotSum a a ≠ 0 := fun hz => ha ((dotSum_self_eq_zero_iff_norm a).mp hz)
    have hb2 : dotSum b b ≠ 0 := fun hz => hb ((dotSum_self_eq_zero_iff_norm b).mp hz)
    unfold cosineSim l2norm
    simp [ha2, hb2]

/-- Witness for C7: similarity of the zero vector `[0, 0]` against `[3, 4]`
is exactly `0`. -/
theorem cosineSim_guarded_witness :
    ([(0 : ℝ), 0].length = [(3 : ℝ), 4].length) ∧ l2norm [(0 : ℝ), 0] = 0 ∧
    cosineSim [(0 : ℝ), 0] [(3 : ℝ), 4] = 0 := by
  have hz : l2norm [(0 : ℝ), 0] = 0 := by
    simp [l2norm, dotSum]
  exact ⟨rfl, hz, (cosineSim_guarded [(0 : ℝ), 0] [(3 : ℝ), 4] rfl).1 (Or.inl hz)⟩

/-- **C8** (corrected).  For `overlap < size` the chunker is deterministic
and every returned chunk is non-empty, and the *scan windows* cover every
character position; coverage by the windows of the *returned* chunks can
fail, because a window whose slice trims to the empty string is dropped
(see the counterexample). -/
theorem splitIntoChunks_props (text : List Char) (size overlap : Nat) (h : overlap < size) :
    splitIntoChunks text size overlap = splitIntoChunks text size overlap ∧
    (∀ c ∈ splitIntoChunks text size overlap, 0 < c.length) ∧
    (∀ p, p < text.length → ∃ w ∈ chunkScan text size overlap, w.1 ≤ p ∧ p < w.2.1) := by
  refine ⟨rfl, ?_, ?_⟩
  · intro c hc
    unfold splitIntoChunks at hc
    simp only [List.mem_filter, List.mem_map, decide_eq_true_eq] at hc
    exact hc.2
  · intro p hp
    obtain ⟨r, hr⟩ := chunkLoopF_total text size overlap h (text.length + 1) 0 [] (by omega)
    have hcov := chunkLoopF_covers text size overlap (text.length + 1) 0 [] r hr
      (by intro q hq h0; omega) p hp
    unfold chunkScan
    rw [hr]
    exact hcov

/-- Witness for C8 at `"abc"` with `size = 2`, `overlap = 1`. -/
theorem splitIntoChunks_props_witness :
    1 < 2 ∧ (∀ c ∈ splitIntoChunks "abc".data 2 1, 0 < c.length) ∧
    (∀ p, p < ("abc".data).length → ∃ w ∈ chunkScan "abc".data 2 1, w.1 ≤ p ∧ p < w.2.1) :=
  ⟨by decide, (splitIntoChunks_props "abc".data 2 1 (by decide)).2.1,
   (splitIntoChunks_props "abc".data 2 1 (by decide)).2.2⟩

/-- **C8 counterexample** to the claim as stated: on the one-character
document `" "` (with the production `CHUNK_SIZE`/`CHUNK_OVERLAP`) the
trimmed chunk is empty and filtered out, so the chunker returns no chunks
at all and position 0 lies in no returned chunk's window. -/
theorem splitIntoChunks_coverage_counterexample :
    splitIntoChunks " ".data CHUNK_SIZE CHUNK_OVERLAP = [] ∧
    (" ".data).length = 1 ∧
    ¬(∀ p, p < (" ".data).length →
        ∃ w ∈ (chunkScan " ".data CHUNK_SIZE CHUNK_OVERLAP).filter
            (fun w => 0 < w.2.2.length), w.1 ≤ p ∧ p < w.2.1) := by
  refine ⟨by decide, by decide, ?_⟩
  intro hall
  obtain ⟨w, hw, _⟩ := hall 0 (by decide)
  have hnil : (chunkScan " ".data CHUNK_SIZE CHUNK_OVERLAP).filter
      (fun w => 0 < w.2.2.length) = [] := by decide
  rw [hnil] at hw
  exact absurd hw (List.not_mem_nil w)

/-- **C10** (confirmed).  Under the precondition `overlap < size`, every
iteration of the `splitIntoChunks` loop that does not reach the end of the
text advances the window start by exactly `size - overlap ≥ 1`, and the
loop terminates: fuel `text.length + 1` always suffices. -/
theorem chunkLoop_terminates (text : List Char) (size overlap : Nat) (h : overlap < size) :
    (∀ fuel i acc, i < text.length → min text.length (i + size) ≠ text.length →
      chunkLoopF text size overlap (fuel + 1) i acc =
        chunkLoopF text size overlap fuel (i + (size - overlap))
          (acc ++ [(i, i + size, jsTrim (jsSlice text i (i + size)))]) ∧
      i < i + (size - overlap)) ∧
    ∃ r, chunkLoopF text size overlap (text.length + 1) 0 [] = some r := by
  constructor
  · intro fuel i acc hi he
    have hmin : min text.length (i + size) = i + size := by omega
    refine ⟨?_, by omega⟩
    rw [chunkLoopF]
    simp only [hi, if_true, hmin]
    rw [if_neg (by omega)]
    have harg : i + size - overlap = i + (size - overlap) := by omega
    rw [harg]
  · exact chunkLoopF_total text size overlap h (text.length + 1) 0 [] (by omega)

/-- Witness for C10: the loop on `"hello world"` with `size = 5`,
`overlap = 2` finishes within the stated fuel. -/
theorem chunkLoop_terminates_witness :
    2 < 5 ∧
    ∃ r, chunkLoopF "hello world".data 5 2 (("hello world".data).length + 1) 0 [] = some r :=
  ⟨by decide, (chunkLoop_terminates "hello world".data 5 2 (by decide)).2⟩

/-- **C1** (corrected).  A failed rebuild does not restore the previous
index: `buildKBEmbeddings` discards `KB_DOCS` and `KB_CHUNKS` before doing
any work, so the state left behind by a failed rebuild is the partial
rebuild — identical to what the same failed rebuild started from an empty
previous index produces, whatever the previous index held. -/
theorem buildKBEmbeddings_discards_prev (dirExists : Bool)
    (files : List (String × List Char))
    (embed : List (List Char) → Option (List (List ℝ))) (prev : KBState)
    (hfail : (buildKBEmbeddings dirExists files embed prev).1 = false) :
    (buildKBEmbeddings dirExists files embed prev).2 =
      (buildKBEmbeddings dirExists files embed ⟨[], []⟩).2 := rfl

set_option maxRecDepth 200000 in
/-- Witness for C1: a one-file store whose embedding call throws. -/
theorem buildKBEmbeddings_discards_prev_witness :
    (buildKBEmbeddings true [("b.md", "y".data)] (fun _ => none)
        ⟨[("a.md", "x".data)], []⟩).1 = false ∧
    (buildKBEmbeddings true [("b.md", "y".data)] (fun _ => none)
        ⟨[("a.md", "x".data)], []⟩).2 =
      (buildKBEmbeddings true [("b.md", "y".data)] (fun _ => none) ⟨[], []⟩).2 :=
  ⟨by decide, buildKBEmbeddings_discards_prev true _ _ _ (by decide)⟩

set_option maxRecDepth 200000 in
/-- **C1 counterexample** to the claim as stated: starting from a
non-empty index, a rebuild whose (only) embedding batch throws ends with
`ok = false` and an index different from the previous one — the old docs
are gone and the new doc list is already in place. -/
theorem buildKBEmbeddings_counterexample :
    (buildKBEmbeddings true [("b.md", "y".data)] (fun _ => none)
        ⟨[("a.md", "x".data)], []⟩).1 = false ∧
    (buildKBEmbeddings true [("b.md", "y".data)] (fun _ => none)
        ⟨[("a.md", "x".data)], []⟩).2 ≠ ⟨[("a.md", "x".data)], []⟩ := by
  constructor
  · decide
  · intro hcontra
    have hdocs := congrArg KBState.docs hcontra
    have heval : (buildKBEmbeddings true [("b.md", "y".data)] (fun _ => none)
        ⟨[("a.md", "x".data)], []⟩).2.docs = [("b.md", "y".data)] := rfl
    rw [heval] at hdocs
    exact absurd hdocs (by decide)

/-- **C2** (corrected).  With a zero-chunk index, retrieval contributes
nothing — `topKRelevant` returns `[]` and the system prompt carries no
`[KB CONTEXT]` block — but `chatWithKB` still invokes both the embedding
and the generation capability; there is no separate "no documents found"
branch. -/
theorem chatWithKB_empty_index (userText userLangCode : String)
    (embedQ : Option (List ℝ)) (gen : String → String → Option String) (q : List ℝ) :
    topKRelevant [] q 6 = [] ∧
    (chatWithKB [] userText userLangCode embedQ gen).embedCalled = true ∧
    (chatWithKB [] userText userLangCode embedQ gen).genCalled = true ∧
    (chatWithKB [] userText userLangCode embedQ gen).systemPrompt =
      chatSystemBase userLangCode := by
  refine ⟨rfl, rfl, rfl, ?_⟩
  unfold chatWithKB
  cases embedQ with
  | none => simp
  | some qe => simp [topKRelevant, formatContextFromChunks]

set_option maxRecDepth 20000 in
/-- **C2 counterexample** to the claim as stated: with zero chunks the
embedding and generation calls still happen and the reply is the
generated text, not a canned "no documents" message. -/
theorem chatWithKB_counterexample :
    (chatWithKB [] "hei" "en" (some [(1 : ℝ)])
        (fun _ _ => some "Answer text.")).embedCalled = true ∧
    (chatWithKB [] "hei" "en" (some [(1 : ℝ)])
        (fun _ _ => some "Answer text.")).genCalled = true ∧
    (chatWithKB [] "hei" "en" (some [(1 : ℝ)])
        (fun _ _ => some "Answer text.")).reply = "Answer text." :=
  ⟨rfl, rfl, rfl⟩

/-- **C3** (confirmed).  The dispatcher follows the fixed precedence
reset > small talk > translation command > schedule > salary > knowledge
query, and in particular a message matching both the reset trigger and a
schedule keyword takes the reset branch. -/
theorem handleIncomingText_precedence (m : String) (ai : Bool) :
    (resetTest m = true → handleIncomingTextIntent m ai = .reset) ∧
    (resetTest m = false → chitchatHit m = true →
      handleIncomingTextIntent m ai = .chitchat) ∧
    (resetTest m = false → chitchatHit m = false → translateCmdHit m = true →
      handleIncomingTextIntent m ai = .translation) ∧
    (resetTest m = false → chitchatHit m = false → translateCmdHit m = false →
      (fastScheduleHit m || ai) = true → handleIncomingTextIntent m ai = .schedule) ∧
    (resetTest m = false → chitchatHit m = false → translateCmdHit m = false →
      (fastScheduleHit m || ai) = false →
      (salaryIntentHit m || (parseHoursPerWeek m).isSome ||
        (parseHourlyRate m).isSome) = true →
      handleIncomingTextIntent m ai = .salary) ∧
    (resetTest m = false → chitchatHit m = false → translateCmdHit m = false →
      (fastScheduleHit m || ai) = false →
      (salaryIntentHit m || (parseHoursPerWeek m).isSome ||
        (parseHourlyRate m).isSome) = false →
      handleIncomingTextIntent m ai = .kb) ∧
    (resetTest m = true → fastScheduleHit m = true →
      handleIncomingTextIntent m ai = .reset) := by
  refine ⟨?_, ?_, ?_, ?_, ?_, ?_, ?_⟩
  · intro h1; simp [handleIncomingTextIntent, h1]
  · intro h1 h2; simp [handleIncomingTextIntent, h1, h2]
  · intro h1 h2 h3; simp [handleIncomingTextIntent, h1, h2, h3]
  · intro h1 h2 h3 h4; simp [handleIncomingTextIntent, h1, h2, h3, h4]
  · intro h1 h2 h3 h4 h5; simp [handleIncomingTextIntent, h1, h2, h3, h4, h5]
  · intro h1 h2 h3 h4 h5; simp [handleIncomingTextIntent, h1, h2, h3, h4, h5]
  · intro h1 _; simp [handleIncomingTextIntent, h1]

/-- Witness for C3: `"reset shift"` fires both the reset trigger and the
schedule keyword detector, and dispatches to reset (even with the
external schedule classifier answering yes). -/
theorem handleIncomingText_precedence_witness :
    resetTest "reset shift" = true ∧ fastScheduleHit "reset shift" = true ∧
    handleIncomingTextIntent "reset shift" true = .reset :=
  ⟨by decide, by decide,
    (handleIncomingText_precedence "reset shift" true).2.2.2.2.2.2 (by decide) (by decide)⟩

/-- **C9** (corrected).  Processing a reset command deletes the user's
`USER_STATE` record (remembered rate and hours included), leaves the
`userLang` cache exactly as it was, and replies with the canned
acknowledgment for the user's language — which is actually in that
language only when it is Russian, Finnish or English (else the English
string is sent, see the counterexample). -/
theorem handleReset_clears (frm : String) (hint : Option String) (detected body : String)
    (s : ServerState) (l : String) (hl : s.userLang frm = some l)
    (hreset : resetTest (jsTrimStr body) = true) :
    (handleResetMessage frm hint detected body s).1.userState frm = none ∧
    (handleResetMessage frm hint detected body s).1.userLang = s.userLang ∧
    (handleResetMessage frm hint detected body s).2 = resetAck l ∧
    ((l = "ru" ∨ l = "fi" ∨ l = "en") →
      ackLanguage ((handleResetMessage frm hint detected body s).2) = l) := by
  have hel : ensureUserLang (s.userLang frm) hint detected = (l, some l) := by
    rw [hl]
    rfl
  have hreply : (handleResetMessage frm hint detected body s).2 = resetAck l := by
    simp [handleResetMessage, hel]
  refine ⟨?_, ?_, hreply, ?_⟩
  · simp [handleResetMessage, hel, updF]
  · funext u
    by_cases hu : u = frm
    · subst hu; simp [handleResetMessage, hel, updF, hl, ensureUserLang]
    · simp [handleResetMessage, hel, updF, hu]
  · intro hcase
    rw [hreply]
    rcases hcase with h | h | h <;> subst h <;> decide

/-- Concrete state for the C9 witness: user `"u1"` with a remembered
profile and cached language `"ru"`. -/
def resetDemoState : ServerState :=
  { userState := fun u =>
      if u = "u1" then some { rate := some 10, hoursPerWeek := some 30 } else none,
    userLang := fun u => if u = "u1" then some "ru" else none }

/-- Witness for C9 at a Russian-language user sending `"reset"`. -/
theorem handleReset_clears_witness :
    resetDemoState.userLang "u1" = some "ru" ∧
    resetTest (jsTrimStr "reset") = true ∧
    (handleResetMessage "u1" none "en" "reset" resetDemoState).1.userState "u1" = none ∧
    (handleResetMessage "u1" none "en" "reset" resetDemoState).1.userLang =
      resetDemoState.userLang ∧
    (handleResetMessage "u1" none "en" "reset" resetDemoState).2 = resetAck "ru" ∧
    ackLanguage ((handleResetMessage "u1" none "en" "reset" resetDemoState).2) = "ru" := by
  have h := handleReset_clears "u1" none "en" "reset" resetDemoState "ru" rfl (by decide)
  exact ⟨rfl, by decide, h.1, h.2.1, h.2.2.1, h.2.2.2 (Or.inl rfl)⟩

/-- Concrete state for the C9 counterexample: a user whose cached language
is Nepali. -/
def resetNeState : ServerState :=
  { userState := fun _ => some { rate := some 10 }, userLang := fun _ => some "ne" }

/-- **C9 counterexample** to the claim as stated: for a user whose current
language is `"ne"`, the acknowledgment sent is the English string, not a
Nepali one — the reset branch only localizes to Russian and Finnish. -/
theorem handleReset_ackLanguage_counterexample :
    resetNeState.userLang "u1" = some "ne" ∧
    resetTest (jsTrimStr "reset") = true ∧
    ackLanguage ((handleResetMessage "u1" none "en" "reset" resetNeState).2) = "en" ∧
    ackLanguage ((handleResetMessage "u1" none "en" "reset" resetNeState).2) ≠ "ne" := by
  refine ⟨rfl, by decide, by decide, by decide⟩

end Sol
